import Mathlib

/-!
Shallow embedding of `packages/nocodb/src/services/integrations.service.ts`.

The durable metadata store (integrations, sources in MetaTable.BASES, bases),
the distributed cache (NocoCache), the per-process connection pool
(NcConnectionMgrv2), the event emitter (AppHooksService) and the command bus
(JobsRedis) are modelled as components of an explicit `World` state.  External
failures (a collaborator throwing) are injected through an `Env` of failure
switches, so that the service's control flow around failures can be examined.
Machine effects are sequenced by explicit state passing; a thrown JS exception
is an `Except.error` value.
-/

deriving instance DecidableEq for Except

namespace NocoIntegrations

/-- Durable integration row (the columns this service reads or writes).
`config` is the opaque encrypted blob at rest, modelled by its sealed value. -/
structure IntegrationRec where
  id : String
  fk_workspace_id : String
  title : String
  config : Option String
  deleted : Bool
  created_by : Option String
deriving DecidableEq, Repr

/-- Durable source row (a MetaTable.BASES record as used by this service).
`deleted` is the legacy tri-state soft-delete flag: `some true`, `some false`,
or `none` (null/unset). -/
structure SourceRec where
  id : String
  base_id : String
  fk_workspace_id : String
  fk_integration_id : Option String
  deleted : Option Bool
deriving DecidableEq, Repr

/-- Base row; only consulted to resolve names for conflict reporting. -/
structure BaseRec where
  id : String
  title : String
deriving DecidableEq, Repr

/-- The durable metadata store. -/
structure Store where
  integrations : List IntegrationRec
  sources : List SourceRec
  bases : List BaseRec
deriving DecidableEq, Repr

/-- Domain events emitted through AppHooksService, tagged by integration id. -/
inductive Event where
  | integrationUpdateEv : String → Event
  | integrationDeleteEv : String → Event
  | integrationCreateEv : String → Event
deriving DecidableEq, Repr

/-- Commands broadcast on the JobsRedis bus (InstanceCommands.RELEASE with a
source id), on the worker channel or the primary channel. -/
inductive Command where
  | workerRelease : String → Command
  | primaryRelease : String → Command
deriving DecidableEq, Repr

/-- Errors.  `badRequest` is `NcError.badRequest e` wrapping a caught error;
`integrationLinkedWithMultiple` is the conflict error raised at line 152,
carrying the blocking bases (as resolved per source) and sources.  The
remaining constructors are injected failures of external collaborators. -/
inductive Err where
  | badRequest : Err → Err
  | integrationNotFound : String → Err
  | integrationLinkedWithMultiple : List (Option BaseRec) → List SourceRec → Err
  | cacheFailure : String → Err
  | connFailure : String → Err
  | busFailure : String → Err
  | baseDeleteFailure : String → Err
  | listFailure : Err
  | commitFailure : Err
deriving DecidableEq, Repr

/-- Whole-system state: durable store, distributed cache (source id ↦ cached
`integration_config`), local live connections (source ids), emitted events and
broadcast commands, in order of occurrence. -/
structure World where
  store : Store
  cache : List (String × Option String)
  conns : List String
  events : List Event
  commands : List Command
deriving DecidableEq, Repr

/-- Failure-injection switches for the external collaborators:
whether the command bus is available (`JobsRedis.available`), whether the
transaction commit throws, whether the dependent-source list read throws, and
the source ids on which the source-deletion collaborator, the cache patch, the
local connection release, or the bus emit throw. -/
structure Env where
  busAvailable : Bool
  commitFails : Bool
  listFails : Bool
  baseDeleteFailsOn : List String
  cacheFailsOn : List String
  connFailsOn : List String
  busFailsOn : List String
deriving DecidableEq, Repr

/-- Modelled from the spec: `Integration.get` (the model class is not under
src/) resolves an integration row by id; absent rows yield no record and the
registry reports NotFound. -/
def integrationGet (st : Store) (id : String) : Option IntegrationRec :=
  st.integrations.find? (fun r => r.id == id)

/-- Modelled from the spec: `Base.get` resolves a base row by id for conflict
reporting. -/
def baseGet (st : Store) (baseId : String) : Option BaseRec :=
  st.bases.find? (fun b => b.id == baseId)

/-- The tri-state active filter both metaList2 calls use, transcribed from the
xcCondition at lines 121-134 and 266-279: deleted = false OR deleted = null. -/
def isActiveFlag (d : Option Bool) : Bool :=
  d == some false || d == none

/-- The metaList2 call at lines 112-136 (conflict check in integrationDelete):
sources in the integration's workspace referencing the integration, restricted
by the tri-state active filter. -/
def listActiveSourcesDelete (st : Store) (wsId intgId : String) : List SourceRec :=
  st.sources.filter (fun s =>
    s.fk_workspace_id == wsId && s.fk_integration_id == some intgId && isActiveFlag s.deleted)

/-- The metaList2 call at lines 258-281 (fan-out query in
updateIntegrationSourceConfig): scoped to the integration's workspace,
condition on fk_integration_id, same tri-state active filter. -/
def listActiveSourcesUpdate (st : Store) (wsId intgId : String) : List SourceRec :=
  st.sources.filter (fun s =>
    s.fk_workspace_id == wsId && s.fk_integration_id == some intgId && isActiveFlag s.deleted)

/-- Modelled from the spec: `integration.getConnectionConfig()` returns the
decrypted connection config.  Config blobs are opaque sealed values in this
model, so decryption is the identity on the modelled value. -/
def getConnectionConfig (r : IntegrationRec) : Option String :=
  r.config

/-- `NocoCache.update` on key BASE scope + source id with the
integration_config field (line 288): merge into the existing entry; if the key
is absent the patch is dropped. -/
def cachePatch (cache : List (String × Option String)) (sid : String) (cfg : Option String) :
    List (String × Option String) :=
  cache.map (fun kv => if kv.1 == sid then (kv.1, cfg) else kv)

/-- The per-source propagation loop of updateIntegrationSourceConfig
(lines 284-300): cache patch, local connection release
(NcConnectionMgrv2.deleteAwait), then — only if the bus is available — the
worker and primary RELEASE broadcasts.  Each step is awaited with no per-source
try/catch, so an injected failure aborts the loop at that point. -/
def propagate (env : Env) (cfg : Option String) :
    List SourceRec → World → Except Err Unit × World
  | [], w => (.ok (), w)
  | s :: rest, w =>
    if env.cacheFailsOn.contains s.id then (.error (.cacheFailure s.id), w)
    else
      let w1 : World := { w with cache := cachePatch w.cache s.id cfg }
      if env.connFailsOn.contains s.id then (.error (.connFailure s.id), w1)
      else
        let w2 : World := { w1 with conns := w1.conns.filter (fun c => c != s.id) }
        if env.busAvailable then
          if env.busFailsOn.contains s.id then (.error (.busFailure s.id), w2)
          else
            propagate env cfg rest
              { w2 with commands :=
                  w2.commands ++ [.workerRelease s.id, .primaryRelease s.id] }
        else
          propagate env cfg rest w2

/-- updateIntegrationSourceConfig (lines 249-301): list the active sources of
the integration (this read can itself throw, injected via `listFails`), then
run the propagation loop with the integration's (new) config. -/
def updateIntegrationSourceConfig (env : Env) (integration : IntegrationRec) (w : World) :
    Except Err Unit × World :=
  if env.listFails then (.error .listFailure, w)
  else
    propagate env integration.config
      (listActiveSourcesUpdate w.store integration.fk_workspace_id integration.id) w

/-- The fields an IntegrationReq may change on an existing record. -/
structure IntegrationReq where
  title : Option String := none
  config : Option String := none
  copy_from_id : Option String := none
deriving DecidableEq, Repr

/-- Apply the request body's fields over an existing record. -/
def applyReq (r : IntegrationRec) (b : IntegrationReq) : IntegrationRec :=
  { r with
    title := b.title.getD r.title,
    config := match b.config with | some c => some c | none => r.config }

/-- Modelled from the spec: `Integration.updateIntegration` (not under src/)
persists the field changes of the identified row and returns the updated
record; absent rows yield NotFound. -/
def updateIntegrationModel (st : Store) (id : String) (b : IntegrationReq) :
    Option (Store × IntegrationRec) :=
  match integrationGet st id with
  | none => none
  | some r =>
    some ({ st with integrations :=
              st.integrations.map (fun x => if x.id == id then applyReq r b else x) },
          applyReq r b)

/-- integrationUpdate (lines 40-75): persist the changes, propagate to the
dependent sources' caches and connections (awaited, no try/catch: any error
from the propagation is surfaced), then strip config from the returned record
and emit the update event. -/
def integrationUpdate (env : Env) (w : World) (integrationId : String) (body : IntegrationReq) :
    Except Err IntegrationRec × World :=
  match updateIntegrationModel w.store integrationId body with
  | none => (.error (.integrationNotFound integrationId), w)
  | some (st1, integration) =>
    match updateIntegrationSourceConfig env integration { w with store := st1 } with
    | (.error e, w2) => (.error e, w2)
    | (.ok _, w2) =>
      (.ok { integration with config := none },
       { w2 with events := w2.events ++ [.integrationUpdateEv integration.id] })

/-- Modelled from the spec: `sourcesService.baseDelete` (not under src/)
performs full teardown of one source — cache entry, live connection, durable
row — inside the supplied transaction; an injected failure
(`env.baseDeleteFailsOn`) throws before mutating.  The transaction copy `tx`
receives the durable deletion; cache and connection teardown hit the live
world. -/
def baseDeleteModelStep (s : SourceRec) (tx : Store) (w : World) : Store × World :=
  ({ tx with sources := tx.sources.filter (fun r => r.id != s.id) },
   { w with
      cache := w.cache.filter (fun kv => kv.1 != s.id),
      conns := w.conns.filter (fun c => c != s.id) })

/-- The cascade loop of integrationDelete (lines 155-167): delete each linked
source through the source-deletion collaborator, threading the open
transaction. -/
def cascade (env : Env) : List SourceRec → Store → World → Except Err Store × World
  | [], tx, w => (.ok tx, w)
  | s :: rest, tx, w =>
    if env.baseDeleteFailsOn.contains s.id then (.error (.baseDeleteFailure s.id), w)
    else
      match baseDeleteModelStep s tx w with
      | (tx1, w1) => cascade env rest tx1 w1

/-- The tail of integrationDelete's try block (lines 169-176): delete the
integration row in the transaction, emit the INTEGRATION_DELETE event
(before the commit), then commit — writing the transaction back to the store —
or throw if the commit fails. -/
def commitPhase (env : Env) (integrationId : String) (tx1 : Store) (w1 : World) :
    Except Err Bool × World :=
  let tx2 : Store :=
    { tx1 with integrations := tx1.integrations.filter (fun r => r.id != integrationId) }
  let w2 : World := { w1 with events := w1.events ++ [.integrationDeleteEv integrationId] }
  if env.commitFails then (.error (.badRequest .commitFailure), w2)
  else (.ok true, { w2 with store := tx2 })

/-- integrationDelete (lines 98-182): inside a transaction, load the
integration, list its active sources, raise the conflict error when any exist
and force is false, otherwise cascade-delete the sources, delete the
integration, emit the event and commit.  Any exception is caught: the
transaction is rolled back (the durable store keeps its pre-call value) and the
error is rethrown wrapped as NcError.badRequest. -/
def integrationDelete (env : Env) (w : World) (integrationId : String) (force : Bool) :
    Except Err Bool × World :=
  match integrationGet w.store integrationId with
  | none => (.error (.badRequest (.integrationNotFound integrationId)), w)
  | some integration =>
    if 0 < (listActiveSourcesDelete w.store integration.fk_workspace_id integration.id).length
        ∧ force = false then
      (.error (.badRequest (.integrationLinkedWithMultiple
        ((listActiveSourcesDelete w.store integration.fk_workspace_id integration.id).map
          (fun s => baseGet w.store s.base_id))
        (listActiveSourcesDelete w.store integration.fk_workspace_id integration.id))), w)
    else
      match cascade env
          (listActiveSourcesDelete w.store integration.fk_workspace_id integration.id)
          w.store w with
      | (.error e, w1) => (.error (.badRequest e), w1)
      | (.ok tx1, w1) => commitPhase env integration.id tx1 w1

/-- Modelled from the spec: `integration.softDelete()` (not under src/) sets
the delete flag of the record. -/
def setDeletedFlag (id : String) (r : IntegrationRec) : IntegrationRec :=
  if r.id == id then { r with deleted := true } else r

/-- The store after soft-deleting one integration: only the matching
integration rows change, and only their delete flag. -/
def softDeleteStore (st : Store) (id : String) : Store :=
  { st with integrations := st.integrations.map (setDeletedFlag id) }

/-- integrationSoftDelete (lines 184-195): load the integration and set its
delete flag; any error (such as NotFound for an absent id) is caught and
rethrown as NcError.badRequest. -/
def integrationSoftDelete (w : World) (integrationId : String) : Except Err Bool × World :=
  match integrationGet w.store integrationId with
  | none => (.error (.badRequest (.integrationNotFound integrationId)), w)
  | some _ =>
    (.ok true, { w with store := softDeleteStore w.store integrationId })

/-- Append the freshly created row and emit the create event (lines 228-244);
the returned record has its config stripped (line 236). -/
def finishCreate (w : World) (newRec : IntegrationRec) : Except Err IntegrationRec × World :=
  (.ok { newRec with config := none },
   { w with
      store := { w.store with integrations := w.store.integrations ++ [newRec] },
      events := w.events ++ [.integrationCreateEv newRec.id] })

/-- integrationCreate (lines 197-245): when copy_from_id is given, load the
original (NotFound before anything is created if it is absent), take its
decrypted config, and create a row whose title is the original's with the
fixed suffix appended; otherwise create from the request body.  `ctxWs` is the
caller context's workspace, `newId` the id minted for the new row. -/
def integrationCreate (w : World) (ctxWs : String) (req : IntegrationReq)
    (userId newId : String) : Except Err IntegrationRec × World :=
  match req.copy_from_id with
  | some cid =>
    match integrationGet w.store cid with
    | none => (.error (.integrationNotFound cid), w)
    | some orig =>
      finishCreate w
        { id := newId, fk_workspace_id := orig.fk_workspace_id,
          title := orig.title ++ "_copy",
          config := getConnectionConfig orig,
          deleted := false, created_by := some userId }
  | none =>
    finishCreate w
      { id := newId, fk_workspace_id := ctxWs,
        title := req.title.getD "",
        config := req.config,
        deleted := false, created_by := some userId }

/-- Modelled from the spec: `integration.getSources()` resolves the sources
referencing the integration (attached to the response when requested). -/
def sourcesOfIntegration (st : Store) (intgId : String) : List SourceRec :=
  st.sources.filter (fun s => s.fk_integration_id == some intgId)

/-- integrationGetWithConfig (lines 25-38): load the integration and
unconditionally populate its config with the decrypted connection config; the
includeSources flag only controls whether the source list is attached. -/
def integrationGetWithConfig (w : World) (integrationId : String) (includeSources : Bool) :
    Except Err (IntegrationRec × Option (List SourceRec)) :=
  match integrationGet w.store integrationId with
  | none => .error (.integrationNotFound integrationId)
  | some integration =>
    .ok ({ integration with config := getConnectionConfig integration },
         if includeSources then some (sourcesOfIntegration w.store integration.id) else none)

/-- The spec's local-only release path: per source, cache patch plus local
connection release, with no bus commands.  Used to characterise the run when
the command bus is unavailable. -/
def propagateLocalOnly (cfg : Option String) : List SourceRec → World → World
  | [], w => w
  | s :: rest, w =>
    propagateLocalOnly cfg rest
      { w with
        cache := cachePatch w.cache s.id cfg,
        conns := w.conns.filter (fun c => c != s.id) }

/-! ### Concrete instances used by witnesses and counterexamples -/

def i1 : IntegrationRec :=
  { id := "i1", fk_workspace_id := "w1", title := "T1",
    config := some "cfgOld", deleted := false, created_by := some "u0" }

def s1 : SourceRec :=
  { id := "s1", base_id := "b1", fk_workspace_id := "w1",
    fk_integration_id := some "i1", deleted := none }

def s2 : SourceRec :=
  { id := "s2", base_id := "b2", fk_workspace_id := "w1",
    fk_integration_id := some "i1", deleted := some false }

def s3 : SourceRec :=
  { id := "s3", base_id := "b3", fk_workspace_id := "w1",
    fk_integration_id := some "i1", deleted := some false }

def b1 : BaseRec := { id := "b1", title := "Base1" }

def b2 : BaseRec := { id := "b2", title := "Base2" }

def b3 : BaseRec := { id := "b3", title := "Base3" }

/-- One integration with two active dependent sources (one with deleted null,
one with deleted false). -/
def store0 : Store := { integrations := [i1], sources := [s1, s2], bases := [b1, b2] }

def w0 : World :=
  { store := store0,
    cache := [("s1", some "cfgOld"), ("s2", some "cfgOld")],
    conns := ["s1", "s2"], events := [], commands := [] }

/-- No external collaborator fails and the bus is available. -/
def envOk : Env :=
  { busAvailable := true, commitFails := false, listFails := false,
    baseDeleteFailsOn := [], cacheFailsOn := [], connFailsOn := [], busFailsOn := [] }

def envCacheFail : Env := { envOk with cacheFailsOn := ["s1"] }

def envCommitFail : Env := { envOk with commitFails := true }

def envBusOff : Env := { envOk with busAvailable := false }

/-- The source-deletion collaborator fails on the second of three sources. -/
def envCascadeFail : Env := { envOk with baseDeleteFailsOn := ["s2"] }

def reqNewCfg : IntegrationReq := { config := some "cfgNew" }

def reqClone : IntegrationReq := { copy_from_id := some "i1" }

def i1New : IntegrationRec := { i1 with config := some "cfgNew" }

/-- `w0` after the durable part of the update with `reqNewCfg` persisted. -/
def wAfterUpd : World := { w0 with store := { store0 with integrations := [i1New] } }

/-- Three active dependent sources, for the mid-cascade failure scenario. -/
def store3 : Store := { integrations := [i1], sources := [s1, s2, s3], bases := [b1, b2, b3] }

def w3 : World :=
  { store := store3,
    cache := [("s1", some "cfgOld"), ("s2", some "cfgOld"), ("s3", some "cfgOld")],
    conns := ["s1", "s2", "s3"], events := [], commands := [] }

/-- One integration with no dependent sources. -/
def wNoSources : World :=
  { store := { store0 with sources := [] }, cache := [], conns := [],
    events := [], commands := [] }

/-! ### Helper lemmas -/

/-- The cascade only writes durable rows into the transaction copy; the live
world's durable store is untouched until commit. -/
theorem cascade_store_eq (env : Env) (l : List SourceRec) (tx : Store) (w : World) :
    (cascade env l tx w).2.store = w.store := by
  induction l generalizing tx w with
  | nil => rfl
  | cons s rest ih =>
    simp only [cascade, baseDeleteModelStep]
    by_cases h : env.baseDeleteFailsOn.contains s.id = true
    · rw [if_pos h]
    · rw [if_neg h]
      exact ih _ _

/-- With the bus unavailable and no cache or connection failure on any listed
source, the propagation loop succeeds and equals the local-only release. -/
theorem propagate_bus_off (env : Env) (cfg : Option String) (l : List SourceRec) (w : World)
    (hbus : env.busAvailable = false)
    (hnofail : ∀ s ∈ l, env.cacheFailsOn.contains s.id = false
      ∧ env.connFailsOn.contains s.id = false) :
    propagate env cfg l w = (.ok (), propagateLocalOnly cfg l w) := by
  induction l generalizing w with
  | nil => rfl
  | cons s rest ih =>
    have hs := hnofail s (List.mem_cons_self s rest)
    simp only [propagate, propagateLocalOnly, hs.1, hs.2, hbus, Bool.false_eq_true, if_false]
    exact ih _ (fun t ht => hnofail t (List.mem_cons_of_mem s ht))

/-- The local-only release path never touches the command bus log. -/
theorem propagateLocalOnly_commands (cfg : Option String) (l : List SourceRec) (w : World) :
    (propagateLocalOnly cfg l w).commands = w.commands := by
  induction l generalizing w with
  | nil => rfl
  | cons s rest ih =>
    simp only [propagateLocalOnly]
    exact ih _

theorem setDeletedFlag_id (id : String) (r : IntegrationRec) :
    (setDeletedFlag id r).id = r.id := by
  unfold setDeletedFlag
  split <;> rfl

theorem setDeletedFlag_idem (id : String) (r : IntegrationRec) :
    setDeletedFlag id (setDeletedFlag id r) = setDeletedFlag id r := by
  by_cases h : r.id == id
  · simp [setDeletedFlag, h]
  · simp [setDeletedFlag, h]

theorem map_setDeletedFlag_idem (id : String) (l : List IntegrationRec) :
    (l.map (setDeletedFlag id)).map (setDeletedFlag id) = l.map (setDeletedFlag id) := by
  induction l with
  | nil => rfl
  | cons a as ih => simp [setDeletedFlag_idem, ih]

theorem find?_comp_setDeletedFlag (id : String) (l : List IntegrationRec) :
    l.find? ((fun r => r.id == id) ∘ setDeletedFlag id) = l.find? (fun r => r.id == id) := by
  induction l with
  | nil => rfl
  | cons a as ih =>
    simp only [List.find?_cons, Function.comp, setDeletedFlag_id]
    cases h : a.id == id <;> simp [h, ih]

/-- Soft-deleting preserves resolvability: looking up the id afterwards finds
the record with its flag set. -/
theorem integrationGet_softDeleteStore (st : Store) (id : String) :
    integrationGet (softDeleteStore st id) id =
      (integrationGet st id).map (setDeletedFlag id) := by
  unfold integrationGet softDeleteStore
  simp only [List.find?_map]
  rw [find?_comp_setDeletedFlag]

/-- The tri-state filter accepts exactly the rows whose flag is not `some true`. -/
theorem isActiveFlag_iff (d : Option Bool) : isActiveFlag d = true ↔ d ≠ some true := by
  cases d with
  | none => simp [isActiveFlag]
  | some b => cases b <;> simp [isActiveFlag]

/-! ### Claim theorems -/

/-- C1: for every integration with at least one active dependent source,
integrationDelete with force = false fails, the surfaced error carries the
conflict error naming every blocking base/source pair (it is raised at line
152 and re-surfaced through the transaction catch as the bad-request rethrow
of line 179), and the whole world — in particular every durable record — is
returned unchanged. -/
theorem delete_conflict_blocks (env : Env) (w : World) (id : String) (intg : IntegrationRec)
    (hget : integrationGet w.store id = some intg)
    (hdep : 0 < (listActiveSourcesDelete w.store intg.fk_workspace_id intg.id).length) :
    integrationDelete env w id false =
      (.error (.badRequest (.integrationLinkedWithMultiple
        ((listActiveSourcesDelete w.store intg.fk_workspace_id intg.id).map
          (fun s => baseGet w.store s.base_id))
        (listActiveSourcesDelete w.store intg.fk_workspace_id intg.id))), w) := by
  simp only [integrationDelete, hget]
  rw [if_pos ⟨hdep, trivial⟩]

/-- Witness for C1: on a store with one integration and two active dependent
sources, the non-forced delete fails with the conflict carrying both
base/source pairs and returns the world unchanged. -/
theorem delete_conflict_blocks_witness :
    integrationDelete envOk w0 "i1" false =
      (.error (.badRequest (.integrationLinkedWithMultiple
        ((listActiveSourcesDelete w0.store i1.fk_workspace_id i1.id).map
          (fun s => baseGet w0.store s.base_id))
        (listActiveSourcesDelete w0.store i1.fk_workspace_id i1.id))), w0) :=
  delete_conflict_blocks envOk w0 "i1" i1 (by decide) (by decide)

/-- C2 counterexample: with two active dependent sources and a cache-patch
failure injected on the first, integrationUpdate fails with that error and the
second source's cache entry is never patched — the per-source failure aborts
the remaining propagation and changes the overall update result, contrary to
the claim. -/
theorem update_propagation_aborts_cex :
    (integrationUpdate envCacheFail w0 "i1" reqNewCfg).1 = .error (.cacheFailure "s1") ∧
    (integrationUpdate envCacheFail w0 "i1" reqNewCfg).2.cache =
      [("s1", some "cfgOld"), ("s2", some "cfgOld")] ∧
    (integrationUpdate envCacheFail w0 "i1" reqNewCfg).2.conns = ["s1", "s2"] := by
  decide

/-- C2 as amended: the propagation loop has no per-source error handling, so
any failure during update propagation — the dependent-list read or a
cache/connection/broadcast step of one source — aborts the remaining
propagation at that point and is surfaced unchanged as the failure of
integrationUpdate itself. -/
theorem update_propagation_failure_surfaced (env : Env) (w : World) (id : String)
    (body : IntegrationReq) (st1 : Store) (intg : IntegrationRec) (e : Err) (w2 : World)
    (hupd : updateIntegrationModel w.store id body = some (st1, intg))
    (hprop : updateIntegrationSourceConfig env intg { w with store := st1 } = (.error e, w2)) :
    integrationUpdate env w id body = (.error e, w2) := by
  simp only [integrationUpdate, hupd, hprop]

/-- Witness for the amended C2: the injected cache failure on the first source
surfaces as the result of integrationUpdate, with the durable update already
persisted and nothing else touched. -/
theorem update_propagation_failure_surfaced_witness :
    integrationUpdate envCacheFail w0 "i1" reqNewCfg =
      (.error (.cacheFailure "s1"), wAfterUpd) :=
  update_propagation_failure_surfaced envCacheFail w0 "i1" reqNewCfg
    wAfterUpd.store i1New (.cacheFailure "s1") wAfterUpd (by decide) (by decide)

/-- C3 counterexample: with a commit failure injected and no dependent
sources, integrationDelete does not commit (durable store unchanged, error
surfaced) yet the INTEGRATION_DELETE event has been emitted: the emit at line
170 precedes the commit at line 176, contrary to the claim. -/
theorem delete_event_before_commit_cex :
    (integrationDelete envCommitFail wNoSources "i1" false).1 =
      .error (.badRequest .commitFailure) ∧
    (integrationDelete envCommitFail wNoSources "i1" false).2.events =
      [.integrationDeleteEv "i1"] ∧
    (integrationDelete envCommitFail wNoSources "i1" false).2.store = wNoSources.store := by
  decide

/-- C3 as amended: the delete event is emitted inside the try block, after the
cascade and the integration row delete but before the commit; in every
execution where the commit fails the event has nevertheless been emitted,
while the durable store is rolled back and the failure surfaced as a
bad-request error. -/
theorem delete_event_emitted_despite_commit_failure (env : Env) (w : World) (id : String)
    (force : Bool) (intg : IntegrationRec) (tx1 : Store) (w1 : World)
    (hget : integrationGet w.store id = some intg)
    (hnoconf : ¬ (0 < (listActiveSourcesDelete w.store intg.fk_workspace_id intg.id).length
      ∧ force = false))
    (hcas : cascade env (listActiveSourcesDelete w.store intg.fk_workspace_id intg.id)
      w.store w = (.ok tx1, w1))
    (hcommit : env.commitFails = true) :
    integrationDelete env w id force =
      (.error (.badRequest .commitFailure),
       { w1 with events := w1.events ++ [.integrationDeleteEv intg.id] }) ∧
    w1.store = w.store := by
  constructor
  · simp only [integrationDelete, hget]
    rw [if_neg hnoconf, hcas]
    simp [commitPhase, hcommit]
  · have h := cascade_store_eq env
      (listActiveSourcesDelete w.store intg.fk_workspace_id intg.id) w.store w
    rw [hcas] at h
    exact h

/-- Witness for the amended C3: the commit-failure run with no dependent
sources emits the delete event and leaves the store unchanged. -/
theorem delete_event_emitted_despite_commit_failure_witness :
    integrationDelete envCommitFail wNoSources "i1" false =
      (.error (.badRequest .commitFailure),
       { wNoSources with events := wNoSources.events ++ [.integrationDeleteEv i1.id] }) ∧
    wNoSources.store = wNoSources.store :=
  delete_event_emitted_despite_commit_failure envCommitFail wNoSources "i1" false i1
    wNoSources.store wNoSources (by decide) (by decide) (by decide) (by decide)

/-- C4: every failing execution of integrationDelete — NotFound inside the
transaction, the conflict branch, a failure midway through the cascade of
dependent-source deletions, or a commit failure — rolls the transaction back
(the durable store is exactly the pre-call store, so no partial cascade is
ever persisted) and surfaces a bad-request-class error, i.e. a badRequest
wrapping of the underlying failure. -/
theorem delete_rollback_on_error (env : Env) (w : World) (id : String) (force : Bool)
    (e : Err) (herr : (integrationDelete env w id force).1 = .error e) :
    (∃ e0, e = .badRequest e0) ∧ (integrationDelete env w id force).2.store = w.store := by
  unfold integrationDelete at herr ⊢
  cases hget : integrationGet w.store id with
  | none =>
    rw [hget] at herr
    simp only [Except.error.injEq] at herr
    exact ⟨⟨.integrationNotFound id, herr.symm⟩, rfl⟩
  | some intg =>
    rw [hget] at herr
    simp only [] at herr ⊢
    by_cases hc : 0 < (listActiveSourcesDelete w.store intg.fk_workspace_id intg.id).length
        ∧ force = false
    · rw [if_pos hc] at herr ⊢
      simp only [Except.error.injEq] at herr
      exact ⟨⟨_, herr.symm⟩, rfl⟩
    · rw [if_neg hc] at herr ⊢
      have hst := cascade_store_eq env
        (listActiveSourcesDelete w.store intg.fk_workspace_id intg.id) w.store w
      cases hcas : cascade env
          (listActiveSourcesDelete w.store intg.fk_workspace_id intg.id) w.store w with
      | mk res w1 =>
        cases res with
        | error e1 =>
          rw [hcas] at herr hst
          simp only [Except.error.injEq] at herr
          exact ⟨⟨e1, herr.symm⟩, hst⟩
        | ok tx1 =>
          rw [hcas] at herr hst
          simp only [] at herr ⊢
          unfold commitPhase at herr ⊢
          by_cases hcf : env.commitFails = true
          · rw [if_pos hcf] at herr ⊢
            simp only [Except.error.injEq] at herr
            exact ⟨⟨.commitFailure, herr.symm⟩, hst⟩
          · rw [if_neg hcf] at herr
            simp at herr

/-- Witness for C4: a forced delete over three active sources where the
source-deletion collaborator fails on the second source surfaces a bad-request
error and leaves the integration and all three sources durably unchanged. -/
theorem delete_rollback_on_error_witness :
    (∃ e0, Err.badRequest (.baseDeleteFailure "s2") = Err.badRequest e0) ∧
    (integrationDelete envCascadeFail w3 "i1" true).2.store = w3.store :=
  delete_rollback_on_error envCascadeFail w3 "i1" true
    (.badRequest (.baseDeleteFailure "s2")) (by decide)

/-- C5: integrationCreate with copy_from_id set to an existing integration X
stores a new record whose title is X's title with the fixed suffix appended
and whose config equals X's decrypted connection config at clone time (and
leaves the sources untouched); when no integration X exists the call fails
with NotFound and creates nothing. -/
theorem create_clone_spec (w : World) (ctxWs : String) (req : IntegrationReq)
    (userId newId cid : String)
    (hcid : req.copy_from_id = some cid)
    (hfresh : integrationGet w.store newId = none) :
    (∀ orig, integrationGet w.store cid = some orig →
      ∃ w1, integrationCreate w ctxWs req userId newId =
          (.ok { id := newId, fk_workspace_id := orig.fk_workspace_id,
                 title := orig.title ++ "_copy", config := none,
                 deleted := false, created_by := some userId }, w1) ∧
        integrationGet w1.store newId = some
          { id := newId, fk_workspace_id := orig.fk_workspace_id,
            title := orig.title ++ "_copy", config := getConnectionConfig orig,
            deleted := false, created_by := some userId } ∧
        w1.store.sources = w.store.sources) ∧
    (integrationGet w.store cid = none →
      integrationCreate w ctxWs req userId newId = (.error (.integrationNotFound cid), w)) := by
  constructor
  · intro orig horig
    refine ⟨{ w with
        store := { w.store with integrations := w.store.integrations ++
          [{ id := newId, fk_workspace_id := orig.fk_workspace_id,
             title := orig.title ++ "_copy", config := getConnectionConfig orig,
             deleted := false, created_by := some userId }] },
        events := w.events ++ [.integrationCreateEv newId] }, ?_, ?_, rfl⟩
    · simp only [integrationCreate, hcid, horig, finishCreate]
    · unfold integrationGet at hfresh ⊢
      simp only [List.find?_append, hfresh, Option.none_or]
      simp
  · intro hnone
    simp only [integrationCreate, hcid, hnone]

/-- Witness for C5: cloning the stored integration with title T1 and config
cfgOld yields a stored record titled T1_copy with config cfgOld; the witness
also exercises the NotFound branch on a missing copy_from_id. -/
theorem create_clone_spec_witness :
    (∃ w1, integrationCreate w0 "w1" reqClone "u7" "i9" =
        (.ok { id := "i9", fk_workspace_id := i1.fk_workspace_id,
               title := i1.title ++ "_copy", config := none,
               deleted := false, created_by := some "u7" }, w1) ∧
      integrationGet w1.store "i9" = some
        { id := "i9", fk_workspace_id := i1.fk_workspace_id,
          title := i1.title ++ "_copy", config := getConnectionConfig i1,
          deleted := false, created_by := some "u7" } ∧
      w1.store.sources = w0.store.sources) ∧
    integrationCreate wNoSources "w1" { copy_from_id := some "iMissing" } "u7" "i9" =
      (.error (.integrationNotFound "iMissing"), wNoSources) :=
  ⟨(create_clone_spec w0 "w1" reqClone "u7" "i9" "i1" (by decide) (by decide)).1
      i1 (by decide),
   (create_clone_spec wNoSources "w1" { copy_from_id := some "iMissing" } "u7" "i9" "iMissing"
      (by decide) (by decide)).2 (by decide)⟩

/-- C6: both listings of active dependent sources — the conflict check of
integrationDelete and the fan-out query of updateIntegrationSourceConfig —
contain exactly the stored sources of the integration's workspace and id whose
tri-state deleted flag is not `some true`; a flag of `some false` and a
null/unset flag are treated identically as active. -/
theorem active_listing_tristate (st : Store) (wsId intgId : String) (s : SourceRec) :
    (s ∈ listActiveSourcesDelete st wsId intgId ↔
      s ∈ st.sources ∧ s.fk_workspace_id = wsId ∧ s.fk_integration_id = some intgId
        ∧ s.deleted ≠ some true) ∧
    (s ∈ listActiveSourcesUpdate st wsId intgId ↔
      s ∈ st.sources ∧ s.fk_workspace_id = wsId ∧ s.fk_integration_id = some intgId
        ∧ s.deleted ≠ some true) := by
  constructor <;>
  · simp only [listActiveSourcesDelete, listActiveSourcesUpdate, List.mem_filter,
      Bool.and_eq_true, beq_iff_eq, isActiveFlag_iff, and_assoc]

/-- Witness for C6: the source with a null deleted flag and the source with a
false deleted flag are both listed by both queries. -/
theorem active_listing_tristate_witness :
    (s1 ∈ listActiveSourcesDelete store0 "w1" "i1"
      ∧ s2 ∈ listActiveSourcesDelete store0 "w1" "i1") ∧
    (s1 ∈ listActiveSourcesUpdate store0 "w1" "i1"
      ∧ s2 ∈ listActiveSourcesUpdate store0 "w1" "i1") :=
  ⟨⟨(active_listing_tristate store0 "w1" "i1" s1).1.mpr
      ⟨by decide, by decide, by decide, by decide⟩,
    (active_listing_tristate store0 "w1" "i1" s2).1.mpr
      ⟨by decide, by decide, by decide, by decide⟩⟩,
   ⟨(active_listing_tristate store0 "w1" "i1" s1).2.mpr
      ⟨by decide, by decide, by decide, by decide⟩,
    (active_listing_tristate store0 "w1" "i1" s2).2.mpr
      ⟨by decide, by decide, by decide, by decide⟩⟩⟩

/-- C7: neither mutating call hands the config blob back: whenever
integrationUpdate or integrationCreate succeeds, the integration record it
returns has its config field cleared (lines 66 and 236). -/
theorem mutating_calls_strip_config (env : Env) (w : World) (id ctxWs userId newId : String)
    (body req : IntegrationReq) :
    ((integrationUpdate env w id body).1.toOption.all fun r => r.config == none) = true ∧
    ((integrationCreate w ctxWs req userId newId).1.toOption.all fun r => r.config == none)
      = true := by
  constructor
  · unfold integrationUpdate
    cases hu : updateIntegrationModel w.store id body with
    | none => rfl
    | some p =>
      obtain ⟨st1, intg⟩ := p
      simp only []
      cases hp : updateIntegrationSourceConfig env intg { w with store := st1 } with
      | mk res w2 =>
        cases res with
        | error e => rfl
        | ok u => rfl
  · unfold integrationCreate
    cases hcid : req.copy_from_id with
    | none => rfl
    | some cid =>
      simp only []
      cases hg : integrationGet w.store cid with
      | none => rfl
      | some orig => rfl

/-- C8: with the command bus unavailable, update propagation still performs
the cache patch and the local connection release for every active dependent
source, broadcasts nothing (the command log is unchanged), and the update
succeeds, returning the config-stripped record. -/
theorem bus_unavailable_local_release (env : Env) (w : World) (id : String)
    (body : IntegrationReq) (st1 : Store) (intg : IntegrationRec)
    (hbus : env.busAvailable = false)
    (hlist : env.listFails = false)
    (hupd : updateIntegrationModel w.store id body = some (st1, intg))
    (hnofail : ∀ s ∈ listActiveSourcesUpdate st1 intg.fk_workspace_id intg.id,
      env.cacheFailsOn.contains s.id = false ∧ env.connFailsOn.contains s.id = false) :
    updateIntegrationSourceConfig env intg { w with store := st1 } =
      (.ok (), propagateLocalOnly intg.config
        (listActiveSourcesUpdate st1 intg.fk_workspace_id intg.id) { w with store := st1 }) ∧
    (propagateLocalOnly intg.config
      (listActiveSourcesUpdate st1 intg.fk_workspace_id intg.id)
      { w with store := st1 }).commands = w.commands ∧
    (integrationUpdate env w id body).1 = .ok { intg with config := none } := by
  have h1 : updateIntegrationSourceConfig env intg { w with store := st1 } =
      (.ok (), propagateLocalOnly intg.config
        (listActiveSourcesUpdate st1 intg.fk_workspace_id intg.id) { w with store := st1 }) := by
    simp only [updateIntegrationSourceConfig, hlist, Bool.false_eq_true, if_false]
    exact propagate_bus_off env intg.config _ _ hbus hnofail
  refine ⟨h1, propagateLocalOnly_commands _ _ _, ?_⟩
  simp only [integrationUpdate, hupd, h1]

/-- Witness for C8: with the bus off and two active dependent sources, the
update succeeds, both cache entries are patched, both connections are
released, and no RELEASE command is broadcast. -/
theorem bus_unavailable_local_release_witness :
    updateIntegrationSourceConfig envBusOff i1New { w0 with store := wAfterUpd.store } =
      (.ok (), propagateLocalOnly i1New.config
        (listActiveSourcesUpdate wAfterUpd.store i1New.fk_workspace_id i1New.id)
        { w0 with store := wAfterUpd.store }) ∧
    (propagateLocalOnly i1New.config
      (listActiveSourcesUpdate wAfterUpd.store i1New.fk_workspace_id i1New.id)
      { w0 with store := wAfterUpd.store }).commands = w0.commands ∧
    (integrationUpdate envBusOff w0 "i1" reqNewCfg).1 = .ok { i1New with config := none } :=
  bus_unavailable_local_release envBusOff w0 "i1" reqNewCfg wAfterUpd.store i1New
    (by decide) (by decide) (by decide) (by decide)

/-- C9: integrationSoftDelete on an existing integration sets only the delete
flag of the named integration (sources, bases and every other world component
are untouched, and non-matching integration rows are kept), succeeds, and is
idempotent: a second call yields the same final state with no error; on a
missing id the underlying NotFound failure is wrapped and reported as a
bad-request error with nothing applied. -/
theorem softDelete_flag_only_idempotent (w : World) (id : String) :
    (∀ intg, integrationGet w.store id = some intg →
      integrationSoftDelete w id = (.ok true, { w with store := softDeleteStore w.store id }) ∧
      integrationSoftDelete { w with store := softDeleteStore w.store id } id =
        (.ok true, { w with store := softDeleteStore w.store id }) ∧
      (softDeleteStore w.store id).sources = w.store.sources ∧
      (softDeleteStore w.store id).bases = w.store.bases ∧
      (∀ r, r ∈ w.store.integrations → r ∈ (softDeleteStore w.store id).integrations
        ∨ r.id = id)) ∧
    (integrationGet w.store id = none →
      integrationSoftDelete w id = (.error (.badRequest (.integrationNotFound id)), w)) := by
  constructor
  · intro intg hget
    have hget2 : integrationGet (softDeleteStore w.store id) id =
        some (setDeletedFlag id intg) := by
      rw [integrationGet_softDeleteStore, hget]
      rfl
    refine ⟨?_, ?_, rfl, rfl, ?_⟩
    · simp only [integrationSoftDelete, hget]
    · simp only [integrationSoftDelete, hget2]
      have hidem : softDeleteStore (softDeleteStore w.store id) id =
          softDeleteStore w.store id := by
        simp only [softDeleteStore]
        exact congrArg (fun l => { w.store with integrations := l })
          (map_setDeletedFlag_idem id w.store.integrations)
      rw [hidem]
    · intro r hr
      by_cases hrid : r.id == id
      · exact Or.inr (by simpa using hrid)
      · refine Or.inl ?_
        have : setDeletedFlag id r = r := by
          simp [setDeletedFlag, hrid]
        exact this ▸ List.mem_map_of_mem (setDeletedFlag id) hr
  · intro hnone
    simp only [integrationSoftDelete, hnone]

/-- Witness for C9: soft-deleting the stored integration flips exactly its
flag and a second soft delete returns the same world without error. -/
theorem softDelete_flag_only_idempotent_witness :
    integrationSoftDelete w0 "i1" =
      (.ok true, { w0 with store := softDeleteStore w0.store "i1" }) ∧
    integrationSoftDelete { w0 with store := softDeleteStore w0.store "i1" } "i1" =
      (.ok true, { w0 with store := softDeleteStore w0.store "i1" }) ∧
    (softDeleteStore w0.store "i1").sources = w0.store.sources ∧
    (softDeleteStore w0.store "i1").bases = w0.store.bases ∧
    (∀ r, r ∈ w0.store.integrations → r ∈ (softDeleteStore w0.store "i1").integrations
      ∨ r.id = "i1") :=
  (softDelete_flag_only_idempotent w0 "i1").1 i1 (by decide)

/-- C10: integrationGetWithConfig on an existing integration always returns
the record with its config populated by the decrypted connection config; the
includeSources mode only controls the attached source list and there is no
mode that omits the config. -/
theorem getWithConfig_always_populates (w : World) (id : String) (includeSources : Bool)
    (intg : IntegrationRec)
    (hget : integrationGet w.store id = some intg) :
    integrationGetWithConfig w id includeSources =
      .ok ({ intg with config := getConnectionConfig intg },
        if includeSources then some (sourcesOfIntegration w.store intg.id) else none) := by
  simp only [integrationGetWithConfig, hget]

/-- Witness for C10: both modes return the stored integration with its config
populated by the decrypted value. -/
theorem getWithConfig_always_populates_witness :
    integrationGetWithConfig w0 "i1" true =
      .ok ({ i1 with config := getConnectionConfig i1 },
        if true then some (sourcesOfIntegration w0.store i1.id) else none) ∧
    integrationGetWithConfig w0 "i1" false =
      .ok ({ i1 with config := getConnectionConfig i1 },
        if false then some (sourcesOfIntegration w0.store i1.id) else none) :=
  ⟨getWithConfig_always_populates w0 "i1" true i1 (by decide),
   getWithConfig_always_populates w0 "i1" false i1 (by decide)⟩

end NocoIntegrations
